import Mathlib

/-
Verification of the node/edge component layer of the causal-graph library
(src/cai_causal_graph/graph_components.py).

Python strings are modelled as lists of characters.  The regular expression
used by get_variable_name_and_lag, namely
  (\w+)(?: laglparen n=(\d+) rparen)?(?: future lparen n=(\d+) rparen)?
matched with re.match (anchored at the start, not at the end), is embedded as
an explicit deterministic parser: the leading greedy word run, then an
optional literal-plus-digits group for the past lag, then an optional one for
the future lag.  Because every part after the word run is optional, the
Python engine never needs to backtrack the greedy quantifiers here, so the
maximal-munch parser below computes exactly the match groups the code sees.
The character classes are modelled over their ASCII range.
-/

namespace Cai

abbrev Str := List Char

/-- ASCII model of the regex class of word characters. -/
def isWordChar (c : Char) : Bool := c.isAlpha || c.isDigit || c == '_'

/-- Decimal digit rendering of a single digit value, as produced by the
Python interpreter when formatting an integer. -/
def digitChar (d : Nat) : Char :=
  if d = 0 then '0' else if d = 1 then '1' else if d = 2 then '2'
  else if d = 3 then '3' else if d = 4 then '4' else if d = 5 then '5'
  else if d = 6 then '6' else if d = 7 then '7' else if d = 8 then '8'
  else '9'

/-- Decimal rendering of a natural number, as the interpreter formats it
inside an f-string. -/
def natToChars (n : Nat) : Str :=
  if n = 0 then ['0'] else ((Nat.digits 10 n).map digitChar).reverse

/-- Model of int() applied to a run of decimal digit characters. -/
def parseNat (l : Str) : Nat := l.foldl (fun a c => 10 * a + (c.toNat - 48)) 0

/-- Errors raised by the component layer. -/
inductive GraphErr where
  | nodeDoesNotExist
  | edgeDoesNotExist
  | valueError
  | typeError
  | assertionError
deriving DecidableEq

/-- Match a literal run of characters at the front of the input, returning
the remainder on success. -/
def matchLit : Str → Str → Option Str
  | [], l => some l
  | _ :: _, [] => none
  | p :: ps, c :: cs => if c = p then matchLit ps cs else none

/-- The literal preceding the digits of a past-lag suffix. -/
def lagLit : Str := [' ', 'l', 'a', 'g', '(', 'n', '=']

/-- The literal preceding the digits of a future-lag suffix. -/
def futLit : Str := [' ', 'f', 'u', 't', 'u', 'r', 'e', '(', 'n', '=']

/-- One optional regex group: the literal, then one or more digits (greedy),
then a closing parenthesis.  Returns the digit run and the remainder, or
none when the group does not match at this position. -/
def parseGroup (lit : Str) (l : Str) : Option (Str × Str) :=
  match matchLit lit l with
  | none => none
  | some r =>
    match r.dropWhile Char.isDigit with
    | ')' :: rest => if r.takeWhile Char.isDigit = [] then none else some (r.takeWhile Char.isDigit, rest)
    | _ => none

/-- The two optional suffix groups of the regex, tried in order after the
word run: the past-lag group first, then the future-lag group on whatever
remains.  Returns the two captured digit runs. -/
def decodeSuffix (rest : Str) : Option Str × Option Str :=
  match parseGroup lagLit rest with
  | some (ds, r2) => (some ds, (parseGroup futLit r2).map (fun p => p.1))
  | none => (none, (parseGroup futLit rest).map (fun p => p.1))

/-- Embedding of get_variable_name_and_lag: the leading word run is the
variable name; a past-lag suffix yields a negative lag, a future-lag suffix
a positive one, no suffix lag zero; when no word run exists at the start the
regex fails to match and the function raises ValueError.  Trailing input
beyond the recognized groups is ignored, as re.match does not anchor the
end. -/
def get_variable_name_and_lag (s : Str) : Except GraphErr (Str × Int) :=
  if s.takeWhile isWordChar = [] then .error .valueError
  else
    match decodeSuffix (s.dropWhile isWordChar) with
    | (some ds, _) => .ok (s.takeWhile isWordChar, -(parseNat ds : Int))
    | (none, some ds) => .ok (s.takeWhile isWordChar, (parseNat ds : Int))
    | (none, none) => .ok (s.takeWhile isWordChar, 0)

/-- The rendered future suffix for a positive lag magnitude. -/
def futSuffix (ds : Str) : Str := futLit ++ ds ++ [')']

/-- The rendered past suffix for a negative lag. -/
def lagSuffix (ds : Str) : Str := lagLit ++ ds ++ [')']

/-- Embedding of get_name_from_lag: first strip any existing suffix via
get_variable_name_and_lag (propagating its ValueError), then append the
suffix selected by the sign of the requested lag. -/
def get_name_from_lag (variable_name : Str) (lag : Int) : Except GraphErr Str :=
  match get_variable_name_and_lag variable_name with
  | .error e => .error e
  | .ok (v, _) =>
    if lag = 0 then .ok v
    else if 0 < lag then .ok (v ++ futSuffix (natToChars lag.toNat))
    else .ok (v ++ lagSuffix (natToChars (-lag).toNat))

lemma digitChar_val {d : Nat} (h : d < 10) : (digitChar d).toNat - 48 = d := by
  interval_cases d <;> rfl

lemma digitChar_isDigit {d : Nat} (h : d < 10) : (digitChar d).isDigit = true := by
  interval_cases d <;> rfl

lemma parseNat_fold (ds : List Nat) : ∀ a : Nat, (∀ d ∈ ds, d < 10) →
    List.foldl (fun a c => 10 * a + (c.toNat - 48)) a ((ds.map digitChar).reverse)
      = a * 10 ^ ds.length + Nat.ofDigits 10 ds := by
  induction ds with
  | nil => intro a _; simp
  | cons d tl ih =>
    intro a h
    rw [List.map_cons, List.reverse_cons, List.foldl_append]
    rw [ih a (fun x hx => h x (List.mem_cons_of_mem d hx))]
    simp only [List.foldl_cons, List.foldl_nil, Nat.ofDigits_cons, List.length_cons]
    rw [digitChar_val (h d (List.mem_cons_self d tl)), pow_succ]
    ring

lemma parseNat_natToChars (n : Nat) : parseNat (natToChars n) = n := by
  by_cases h : n = 0
  · subst h; rfl
  · unfold parseNat natToChars
    rw [if_neg h, parseNat_fold (Nat.digits 10 n) 0
      (fun d hd => Nat.digits_lt_base (by norm_num) hd)]
    simp [Nat.ofDigits_digits]

lemma natToChars_isDigit (n : Nat) : ∀ c ∈ natToChars n, c.isDigit = true := by
  intro c hc
  unfold natToChars at hc
  by_cases h : n = 0
  · simp [h] at hc; subst hc; rfl
  · rw [if_neg h] at hc
    rw [List.mem_reverse, List.mem_map] at hc
    obtain ⟨d, hd, rfl⟩ := hc
    exact digitChar_isDigit (Nat.digits_lt_base (by norm_num) hd)

lemma natToChars_ne_nil (n : Nat) : natToChars n ≠ [] := by
  unfold natToChars
  by_cases h : n = 0
  · simp [h]
  · rw [if_neg h]
    simp [Nat.digits_ne_nil_iff_ne_zero.mpr h]

lemma takeWhile_all {p : Char → Bool} (v : Str) (h : ∀ c ∈ v, p c = true) :
    v.takeWhile p = v := by
  induction v with
  | nil => rfl
  | cons c cs ih =>
    rw [List.takeWhile_cons, if_pos (h c (List.mem_cons_self c cs))]
    rw [ih (fun x hx => h x (List.mem_cons_of_mem c hx))]

lemma dropWhile_all {p : Char → Bool} (v : Str) (h : ∀ c ∈ v, p c = true) :
    v.dropWhile p = [] := by
  induction v with
  | nil => rfl
  | cons c cs ih =>
    rw [List.dropWhile_cons, if_pos (h c (List.mem_cons_self c cs))]
    exact ih (fun x hx => h x (List.mem_cons_of_mem c hx))

lemma takeWhile_app_stop {p : Char → Bool} (v : Str) (c : Char) (r : Str)
    (hv : ∀ x ∈ v, p x = true) (hc : p c = false) :
    (v ++ c :: r).takeWhile p = v := by
  induction v with
  | nil => simp [List.takeWhile_cons, hc]
  | cons x xs ih =>
    rw [List.cons_append, List.takeWhile_cons, if_pos (hv x (List.mem_cons_self x xs))]
    rw [ih (fun y hy => hv y (List.mem_cons_of_mem x hy))]

lemma dropWhile_app_stop {p : Char → Bool} (v : Str) (c : Char) (r : Str)
    (hv : ∀ x ∈ v, p x = true) (hc : p c = false) :
    (v ++ c :: r).dropWhile p = c :: r := by
  induction v with
  | nil => simp [List.dropWhile_cons, hc]
  | cons x xs ih =>
    rw [List.cons_append, List.dropWhile_cons, if_pos (hv x (List.mem_cons_self x xs))]
    exact ih (fun y hy => hv y (List.mem_cons_of_mem x hy))

lemma matchLit_self (l : Str) : ∀ r : Str, matchLit l (l ++ r) = some r := by
  induction l with
  | nil => intro r; rfl
  | cons p ps ih => intro r; simp [matchLit, ih]

lemma parseGroup_exact (lit ds r : Str) (hd1 : ds ≠ [])
    (hd2 : ∀ c ∈ ds, c.isDigit = true) :
    parseGroup lit (lit ++ (ds ++ ')' :: r)) = some (ds, r) := by
  unfold parseGroup
  rw [matchLit_self]
  dsimp only
  rw [dropWhile_app_stop ds ')' r hd2 (by rfl), takeWhile_app_stop ds ')' r hd2 (by rfl)]
  simp [hd1]

lemma decode_all_word (v : Str) (h1 : v ≠ []) (h2 : ∀ c ∈ v, isWordChar c = true) :
    get_variable_name_and_lag v = .ok (v, 0) := by
  unfold get_variable_name_and_lag
  rw [takeWhile_all v h2, dropWhile_all v h2, if_neg h1]
  rfl

lemma decode_fut (v ds : Str) (h1 : v ≠ []) (h2 : ∀ c ∈ v, isWordChar c = true)
    (hd1 : ds ≠ []) (hd2 : ∀ c ∈ ds, c.isDigit = true) :
    get_variable_name_and_lag (v ++ futSuffix ds) = .ok (v, (parseNat ds : Int)) := by
  have hsp : futSuffix ds = ' ' :: ('f' :: 'u' :: 't' :: 'u' :: 'r' :: 'e' :: '(' :: 'n' :: '=' :: (ds ++ [')'])) := by
    simp [futSuffix, futLit]
  unfold get_variable_name_and_lag
  rw [hsp, takeWhile_app_stop v ' ' _ h2 (by rfl), dropWhile_app_stop v ' ' _ h2 (by rfl)]
  rw [if_neg h1]
  have hlag : parseGroup lagLit (' ' :: ('f' :: 'u' :: 't' :: 'u' :: 'r' :: 'e' :: '(' :: 'n' :: '=' :: (ds ++ [')']))) = none := by
    simp [parseGroup, matchLit, lagLit]
  have hfut : parseGroup futLit (' ' :: ('f' :: 'u' :: 't' :: 'u' :: 'r' :: 'e' :: '(' :: 'n' :: '=' :: (ds ++ [')']))) = some (ds, []) := by
    have : (' ' :: ('f' :: 'u' :: 't' :: 'u' :: 'r' :: 'e' :: '(' :: 'n' :: '=' :: (ds ++ [')'])))
        = futLit ++ (ds ++ ')' :: []) := by simp [futLit]
    rw [this]
    exact parseGroup_exact futLit ds [] hd1 hd2
  simp [decodeSuffix, hlag, hfut]

lemma decode_lag (v ds : Str) (h1 : v ≠ []) (h2 : ∀ c ∈ v, isWordChar c = true)
    (hd1 : ds ≠ []) (hd2 : ∀ c ∈ ds, c.isDigit = true) :
    get_variable_name_and_lag (v ++ lagSuffix ds) = .ok (v, -(parseNat ds : Int)) := by
  have hsp : lagSuffix ds = ' ' :: ('l' :: 'a' :: 'g' :: '(' :: 'n' :: '=' :: (ds ++ [')'])) := by
    simp [lagSuffix, lagLit]
  unfold get_variable_name_and_lag
  rw [hsp, takeWhile_app_stop v ' ' _ h2 (by rfl), dropWhile_app_stop v ' ' _ h2 (by rfl)]
  rw [if_neg h1]
  have hlag : parseGroup lagLit (' ' :: ('l' :: 'a' :: 'g' :: '(' :: 'n' :: '=' :: (ds ++ [')']))) = some (ds, []) := by
    have : (' ' :: ('l' :: 'a' :: 'g' :: '(' :: 'n' :: '=' :: (ds ++ [')'])))
        = lagLit ++ (ds ++ ')' :: []) := by simp [lagLit]
    rw [this]
    exact parseGroup_exact lagLit ds [] hd1 hd2
  have hfut : parseGroup futLit ([] : Str) = none := rfl
  simp [decodeSuffix, hlag, hfut]

/-- Claim C1: the lag encoding is a two-sided inverse of the lag decoding:
for every base name made of word characters and every integer lag,
get_name_from_lag succeeds — returning the bare name for lag zero, a future
suffix for a positive lag and a past-lag suffix for a negative one — and
get_variable_name_and_lag maps the result back to exactly that name and
lag. -/
theorem lag_encode_decode_inverse (v : Str) (k : Int) (h1 : v ≠ [])
    (h2 : ∀ c ∈ v, isWordChar c = true) :
    get_name_from_lag v k =
      Except.ok (if k = 0 then v
        else if 0 < k then v ++ futSuffix (natToChars k.toNat)
        else v ++ lagSuffix (natToChars (-k).toNat)) ∧
    (get_name_from_lag v k).bind get_variable_name_and_lag = Except.ok (v, k) := by
  have hv := decode_all_word v h1 h2
  have hshape : get_name_from_lag v k =
      Except.ok (if k = 0 then v
        else if 0 < k then v ++ futSuffix (natToChars k.toNat)
        else v ++ lagSuffix (natToChars (-k).toNat)) := by
    unfold get_name_from_lag
    rw [hv]
    by_cases hk0 : k = 0
    · simp [hk0]
    · by_cases hkp : 0 < k <;> simp [hk0, hkp]
  refine ⟨hshape, ?_⟩
  rw [hshape]
  by_cases hk0 : k = 0
  · simp [hk0, Except.bind, hv]
  · by_cases hkp : 0 < k
    · simp only [if_neg hk0, if_pos hkp, Except.bind]
      rw [decode_fut v (natToChars k.toNat) h1 h2 (natToChars_ne_nil _) (natToChars_isDigit _)]
      rw [parseNat_natToChars]
      congr 1
      congr 1
      omega
    · simp only [if_neg hk0, if_neg hkp, Except.bind]
      rw [decode_lag v (natToChars (-k).toNat) h1 h2 (natToChars_ne_nil _) (natToChars_isDigit _)]
      rw [parseNat_natToChars]
      congr 1
      congr 1
      omega

/-- Witness for claim C1 at the base name x and lag -2. -/
theorem lag_encode_decode_inverse_w :
    (get_name_from_lag ['x'] (-2)).bind get_variable_name_and_lag
      = Except.ok (['x'], -2) :=
  (lag_encode_decode_inverse ['x'] (-2) (by decide) (by decide)).2

/-- Counterexample to claim C3: a string with a malformed suffix and a string
carrying both suffix forms are not rejected — get_variable_name_and_lag
returns a result instead of raising, because re.match does not anchor the
end of the pattern (and with both suffixes present the past lag wins). -/
theorem decode_malformed_accepted_cex :
    get_variable_name_and_lag "X lag(".data = Except.ok (['X'], 0) ∧
    get_variable_name_and_lag "X lag(n=1) future(n=2)".data = Except.ok (['X'], -1) := by
  exact ⟨rfl, rfl⟩

/-- Claim C3 (amended): get_variable_name_and_lag raises a value error
exactly when the input has no leading word character (the empty string or a
string starting with a non-word character); every other string is accepted,
with any unparsed trailing text ignored, so strings matching the lag grammar
never raise. -/
theorem decode_error_iff (s : Str) :
    get_variable_name_and_lag s = .error GraphErr.valueError ↔
      s.takeWhile isWordChar = [] := by
  unfold get_variable_name_and_lag
  by_cases h : s.takeWhile isWordChar = []
  · simp [h]
  · rw [if_neg h]
    rcases hds : decodeSuffix (s.dropWhile isWordChar) with ⟨_ | ds, _ | ds2⟩ <;>
      simp [h]

/-
The Edge identifier is computed by the source as str applied to the ordered
pair of endpoint identifiers.  The interpreter renders a tuple of strings as
an open parenthesis, the repr of each element separated by a comma and a
space, and a closing parenthesis; the repr of a string is the string wrapped
in quotes — single quotes by default, double quotes when the string contains
a single quote but no double quote — with backslashes and the chosen quote
escaped.  (Escapes of non-printable characters are not modelled; for those
characters the model keeps the character verbatim, which preserves the
injectivity of the rendering that the identifier claims rely on.)
-/

/-- The single-quote character. -/
def squo : Char := Char.ofNat 39

/-- The double-quote character. -/
def dquo : Char := Char.ofNat 34

/-- The backslash character. -/
def bslash : Char := Char.ofNat 92

/-- How the interpreter escapes one character inside a quoted string. -/
def pyEscapeChar (q c : Char) : Str :=
  if c = bslash then [bslash, bslash] else if c = q then [bslash, q] else [c]

/-- Escape a whole string for rendering between quote characters q. -/
def pyEscape (q : Char) (s : Str) : Str := (s.map (pyEscapeChar q)).flatten

/-- The quote character the interpreter picks for the repr of a string. -/
def chooseQuote (s : Str) : Char := if squo ∈ s ∧ ¬ dquo ∈ s then dquo else squo

/-- Model of the repr of a string: the chosen quote, the escaped body, the
closing quote. -/
def pyRepr (s : Str) : Str :=
  chooseQuote s :: (pyEscape (chooseQuote s) s ++ [chooseQuote s])

/-- Model of str applied to a pair of strings. -/
def tupleStr (a b : Str) : Str :=
  '(' :: (pyRepr a ++ ',' :: ' ' :: (pyRepr b ++ [')']))

/-- Parse a quoted body (opened with quote q) from the front of the input,
undoing the escaping; returns the body and the remainder past the closing
quote. -/
def parseQuoted (q : Char) : Str → Option (Str × Str)
  | [] => none
  | c :: cs =>
    if c = q then some ([], cs)
    else if c = bslash then
      match cs with
      | [] => none
      | d :: ds => (parseQuoted q ds).map (fun p => (d :: p.1, p.2))
    else (parseQuoted q cs).map (fun p => (c :: p.1, p.2))

/-- Parse one rendered string literal from the front of the input. -/
def parseLit (l : Str) : Option (Str × Str) :=
  match l with
  | [] => none
  | c :: cs => if c = squo ∨ c = dquo then parseQuoted c cs else none

lemma parseQuoted_cons (q c : Char) (cs : Str) :
    parseQuoted q (c :: cs) =
      if c = q then some ([], cs)
      else if c = bslash then
        match cs with
        | [] => none
        | d :: ds => (parseQuoted q ds).map (fun p => (d :: p.1, p.2))
      else (parseQuoted q cs).map (fun p => (c :: p.1, p.2)) := by
  rw [parseQuoted.eq_def]
  dsimp only
  rfl

lemma parseQuoted_pyEscape (q : Char) (hq : q ≠ bslash) (s : Str) : ∀ r : Str,
    parseQuoted q (pyEscape q s ++ q :: r) = some (s, r) := by
  induction s with
  | nil =>
    intro r
    have h0 : pyEscape q [] = [] := rfl
    rw [h0, List.nil_append, parseQuoted_cons, if_pos rfl]
  | cons c cs ih =>
    intro r
    have hstep : pyEscape q (c :: cs) = pyEscapeChar q c ++ pyEscape q cs := by
      simp [pyEscape]
    rw [hstep]
    by_cases h1 : c = bslash
    · rw [h1]
      have hsh : (pyEscapeChar q bslash ++ pyEscape q cs) ++ q :: r
          = bslash :: (bslash :: (pyEscape q cs ++ q :: r)) := by
        simp [pyEscapeChar]
      rw [hsh, parseQuoted_cons, if_neg (fun h => hq h.symm), if_pos rfl]
      dsimp only
      rw [ih r]
      rfl
    · by_cases h2 : c = q
      · rw [h2]
        have hsh : (pyEscapeChar q q ++ pyEscape q cs) ++ q :: r
            = bslash :: (q :: (pyEscape q cs ++ q :: r)) := by
          simp [pyEscapeChar, hq]
        rw [hsh, parseQuoted_cons, if_neg (fun h => hq h.symm), if_pos rfl]
        dsimp only
        rw [ih r]
        rfl
      · have hsh : (pyEscapeChar q c ++ pyEscape q cs) ++ q :: r
            = c :: (pyEscape q cs ++ q :: r) := by
          simp [pyEscapeChar, h1, h2]
        rw [hsh, parseQuoted_cons, if_neg h2, if_neg h1]
        rw [ih r]
        rfl

lemma chooseQuote_cases (s : Str) : chooseQuote s = squo ∨ chooseQuote s = dquo := by
  unfold chooseQuote
  split <;> simp

lemma chooseQuote_ne_bslash (s : Str) : chooseQuote s ≠ bslash := by
  rcases chooseQuote_cases s with h | h <;> rw [h] <;> decide

lemma parseLit_pyRepr (s r : Str) : parseLit (pyRepr s ++ r) = some (s, r) := by
  have hshape : pyRepr s ++ r = chooseQuote s :: (pyEscape (chooseQuote s) s ++ chooseQuote s :: r) := by
    simp [pyRepr]
  rw [hshape]
  unfold parseLit
  rcases chooseQuote_cases s with h | h <;>
    simp [h, parseQuoted_pyEscape _ (h ▸ chooseQuote_ne_bslash s) s r]

lemma tupleStr_inj (a b c d : Str) (h : tupleStr a b = tupleStr c d) :
    a = c ∧ b = d := by
  unfold tupleStr at h
  have h1 : pyRepr a ++ ',' :: ' ' :: (pyRepr b ++ [')'])
      = pyRepr c ++ ',' :: ' ' :: (pyRepr d ++ [')']) := by
    injection h
  have h2 := congrArg parseLit h1
  rw [parseLit_pyRepr, parseLit_pyRepr] at h2
  have hac : a = c := by
    have := (Option.some.injEq _ _).mp h2
    exact (Prod.mk.injEq _ _ _ _).mp this |>.1
  have htail : ',' :: ' ' :: (pyRepr b ++ [')']) = ',' :: ' ' :: (pyRepr d ++ [')']) := by
    have := (Option.some.injEq _ _).mp h2
    exact (Prod.mk.injEq _ _ _ _).mp this |>.2
  have h3 : pyRepr b ++ [')'] = pyRepr d ++ [')'] := by
    injection htail with _ h3a
    injection h3a
  have h4 := congrArg parseLit h3
  rw [parseLit_pyRepr, parseLit_pyRepr] at h4
  have hbd : b = d := by
    have := (Option.some.injEq _ _).mp h4
    exact (Prod.mk.injEq _ _ _ _).mp this |>.1
  exact ⟨hac, hbd⟩

/-- The closed set of edge types (type_definitions.EDGE_T), whose members
DIRECTED_EDGE, UNDIRECTED_EDGE, BIDIRECTED_EDGE and UNKNOWN_EDGE are the
ones named by graph_components.py. -/
inductive EDGE_T where
  | directed
  | undirected
  | bidirected
  | unknown
deriving DecidableEq

/-- The variable-type enum carried by a Node.  Modelled from the spec: the
repository file type_definitions.py is not under src; the spec lists the
closed enum NodeVariableType with members UNSPECIFIED, CONTINUOUS, BINARY
and CATEGORICAL, each member being named by its lower-case string value as
is usual for the library's string-valued enums. -/
inductive NodeVariableType where
  | unspecified
  | continuous
  | binary
  | categorical
deriving DecidableEq

/-- Modelled from the spec: the enum-call conversion from a string value to
the NodeVariableType member carrying that value; an unrecognized value has
no member (the interpreter raises ValueError there). -/
def NodeVariableType.ofStr (s : Str) : Option NodeVariableType :=
  if s = "unspecified".data then some .unspecified
  else if s = "continuous".data then some .continuous
  else if s = "binary".data then some .binary
  else if s = "categorical".data then some .categorical
  else none

/-- Model of the interpreter's string hash: an unspecified deterministic
function of the character sequence alone, here fixed to a concrete modular
polynomial so that it is computable. -/
def pyHash (s : Str) : Nat :=
  s.foldl (fun a c => (a * 1000003 + c.toNat + 7) % 2 ^ 61) 97

/-
The Edge class.  In the source an Edge stores its two endpoint Node objects
and reads exactly one thing from them — the identifier property, which never
raises — so the endpoints are represented here by their identifier strings
(the arena-style representation the spec itself prescribes for the cyclic
Node and Edge back-references).  The valid flag is the private field that
invalidate switches off.
-/
structure Edge where
  source : Str
  destination : Str
  edge_type : EDGE_T
  meta : List (Str × Str)
  valid : Bool
deriving DecidableEq

/-- Embedding of the private validity assertion of Edge: raises
EdgeDoesNotExistError when the edge has been deleted. -/
def Edge.assert_valid (e : Edge) : Except GraphErr Unit :=
  if e.valid then .ok () else .error .edgeDoesNotExist

/-- invalidate: asserts validity first, so invalidating twice raises. -/
def Edge.invalidate (e : Edge) : Except GraphErr Edge :=
  match e.assert_valid with
  | .error er => .error er
  | .ok _ => .ok { e with valid := false }

/-- The source property: asserts validity, then returns the source node
(represented by its identifier). -/
def Edge.source_prop (e : Edge) : Except GraphErr Str :=
  match e.assert_valid with
  | .error er => .error er
  | .ok _ => .ok e.source

/-- The destination property: asserts validity, then returns the
destination node. -/
def Edge.destination_prop (e : Edge) : Except GraphErr Str :=
  match e.assert_valid with
  | .error er => .error er
  | .ok _ => .ok e.destination

/-- get_edge_pair: the ordered pair of endpoint identifiers, with no
validity check in the source. -/
def Edge.get_edge_pair (e : Edge) : Str × Str := (e.source, e.destination)

/-- get_edge_type: returns the stored type, with no validity check in the
source. -/
def Edge.get_edge_type (e : Edge) : EDGE_T := e.edge_type

/-- The identifier property: str of the ordered edge pair as stored, with no
validity check and no normalization. -/
def Edge.identifier (e : Edge) : Str := tupleStr e.source e.destination

/-- The metadata property: returns the meta mapping, with no validity check
in the source. -/
def Edge.get_metadata (e : Edge) : List (Str × Str) := e.meta

/-- Edge hashing: hash of the identifier string. -/
def Edge.hashValue (e : Edge) : Nat := pyHash e.identifier

/-- Reversal of a pair, as tuple slicing with step -1 produces. -/
def swapPair (p : Str × Str) : Str × Str := (p.2, p.1)

/-- Embedding of Edge equality: same ordered pair — compare types; reversed
pair — equal only for the direction-agnostic types and equal types;
otherwise unequal.  Metadata is never consulted. -/
def edge_eq (e f : Edge) : Bool :=
  if e.get_edge_pair = f.get_edge_pair then
    decide (e.get_edge_type = f.get_edge_type)
  else if e.get_edge_pair = swapPair f.get_edge_pair then
    decide (e.get_edge_type = EDGE_T.undirected ∨ e.get_edge_type = EDGE_T.bidirected
      ∨ e.get_edge_type = EDGE_T.unknown)
    && decide (e.get_edge_type = f.get_edge_type)
  else false

/-- Claim C2: the three-rule characterization of Edge equality — same
ordered pair: equal iff types match; reversed pair (and not the same pair):
equal iff the common type is one of UNDIRECTED, BIDIRECTED, UNKNOWN; all
other cases unequal; and metadata never affects the outcome. -/
theorem edge_eq_characterization (e f : Edge) :
    (edge_eq e f = true ↔
      ((e.get_edge_pair = f.get_edge_pair ∧ e.get_edge_type = f.get_edge_type) ∨
       (e.get_edge_pair ≠ f.get_edge_pair ∧ e.get_edge_pair = swapPair f.get_edge_pair ∧
        e.get_edge_type = f.get_edge_type ∧
        (e.get_edge_type = EDGE_T.undirected ∨ e.get_edge_type = EDGE_T.bidirected
          ∨ e.get_edge_type = EDGE_T.unknown)))) ∧
    (∀ m1 m2, edge_eq { e with meta := m1 } { f with meta := m2 } = edge_eq e f) := by
  constructor
  · unfold edge_eq
    split_ifs with h1 h2
    · simp [h1]
    · simp only [Bool.and_eq_true, decide_eq_true_eq]
      constructor
      · rintro ⟨hm, ht⟩
        exact Or.inr ⟨h1, h2, ht, hm⟩
      · rintro (⟨hp, _⟩ | ⟨_, _, ht, hm⟩)
        · exact absurd hp h1
        · exact ⟨hm, ht⟩
    · simp only [Bool.false_eq_true, false_iff]
      rintro (⟨hp, _⟩ | ⟨_, hp, _, _⟩)
      · exact h1 hp
      · exact h2 hp
  · intro m1 m2
    rfl

/-- Claim C7: the Edge identifier is the string form of the ordered pair as
stored, so an undirected edge and its reversal over two distinct node
identifiers compare equal under Edge equality and yet carry different
identifier strings. -/
theorem undirected_reversal_distinct_identifiers (a b : Str) (h : a ≠ b) :
    Edge.identifier ⟨a, b, EDGE_T.undirected, [], true⟩ = tupleStr a b ∧
    edge_eq ⟨a, b, EDGE_T.undirected, [], true⟩ ⟨b, a, EDGE_T.undirected, [], true⟩ = true ∧
    Edge.identifier ⟨a, b, EDGE_T.undirected, [], true⟩
      ≠ Edge.identifier ⟨b, a, EDGE_T.undirected, [], true⟩ := by
  refine ⟨rfl, ?_, ?_⟩
  · have hp : (⟨a, b, EDGE_T.undirected, [], true⟩ : Edge).get_edge_pair
        ≠ (⟨b, a, EDGE_T.undirected, [], true⟩ : Edge).get_edge_pair := by
      simp [Edge.get_edge_pair]
      intro hab
      exact absurd hab h
    have hsw : (⟨a, b, EDGE_T.undirected, [], true⟩ : Edge).get_edge_pair
        = swapPair (⟨b, a, EDGE_T.undirected, [], true⟩ : Edge).get_edge_pair := rfl
    unfold edge_eq
    rw [if_neg hp, if_pos hsw]
    rfl
  · intro hid
    have := tupleStr_inj a b b a hid
    exact h this.1

/-- Witness for claim C7 at the node identifiers a and b. -/
theorem undirected_reversal_distinct_identifiers_w :
    Edge.identifier ⟨['a'], ['b'], EDGE_T.undirected, [], true⟩ = tupleStr ['a'] ['b'] ∧
    edge_eq ⟨['a'], ['b'], EDGE_T.undirected, [], true⟩ ⟨['b'], ['a'], EDGE_T.undirected, [], true⟩ = true ∧
    Edge.identifier ⟨['a'], ['b'], EDGE_T.undirected, [], true⟩
      ≠ Edge.identifier ⟨['b'], ['a'], EDGE_T.undirected, [], true⟩ :=
  undirected_reversal_distinct_identifiers ['a'] ['b'] (by decide)

/-- Claim C10: Edge hashing is computed from the ordered-pair identifier
string, so it is not a congruence for Edge equality: the undirected edge on
a and b and its reversal are equal yet hash differently. -/
theorem edge_hash_not_congruent :
    edge_eq ⟨['a'], ['b'], EDGE_T.undirected, [], true⟩ ⟨['b'], ['a'], EDGE_T.undirected, [], true⟩ = true ∧
    Edge.hashValue ⟨['a'], ['b'], EDGE_T.undirected, [], true⟩
      ≠ Edge.hashValue ⟨['b'], ['a'], EDGE_T.undirected, [], true⟩ := by
  constructor
  · decide
  · decide

/-- A concrete valid directed edge used by the concrete-instance theorems. -/
def sampleEdge : Edge := ⟨['a'], ['b'], EDGE_T.directed, [], true⟩

/-- The same edge after deletion. -/
def invalidSampleEdge : Edge := ⟨['a'], ['b'], EDGE_T.directed, [], false⟩

/-- Counterexample to claim C4: after invalidate, the edge-type, edge-pair,
identifier and metadata accessors match the source in performing no validity
check — they return their values instead of raising
EdgeDoesNotExistError. -/
theorem edge_accessors_survive_invalidate_cex :
    Edge.invalidate sampleEdge = Except.ok invalidSampleEdge ∧
    Edge.get_edge_type invalidSampleEdge = EDGE_T.directed ∧
    Edge.get_edge_pair invalidSampleEdge = (['a'], ['b']) ∧
    Edge.get_metadata invalidSampleEdge = [] ∧
    Edge.identifier invalidSampleEdge = tupleStr ['a'] ['b'] :=
  ⟨rfl, rfl, rfl, rfl, rfl⟩

/-- Claim C4 (amended): once an Edge is invalidated, the source and
destination accessors and a further invalidate raise
EdgeDoesNotExistError, while the identifier, edge-pair, edge-type and
metadata accessors perform no validity check and still return the stored
values. -/
theorem edge_invalidation_accessors (e : Edge) (h : e.valid = false) :
    Edge.source_prop e = .error GraphErr.edgeDoesNotExist ∧
    Edge.destination_prop e = .error GraphErr.edgeDoesNotExist ∧
    Edge.invalidate e = .error GraphErr.edgeDoesNotExist ∧
    Edge.get_edge_type e = e.edge_type ∧
    Edge.get_edge_pair e = (e.source, e.destination) ∧
    Edge.get_metadata e = e.meta ∧
    Edge.identifier e = tupleStr e.source e.destination := by
  refine ⟨?_, ?_, ?_, rfl, rfl, rfl, rfl⟩ <;>
    simp [Edge.source_prop, Edge.destination_prop, Edge.invalidate, Edge.assert_valid, h]

/-- Witness for the amended claim C4 at a concrete invalidated edge. -/
theorem edge_invalidation_accessors_w :
    Edge.source_prop invalidSampleEdge = .error GraphErr.edgeDoesNotExist ∧
    Edge.destination_prop invalidSampleEdge = .error GraphErr.edgeDoesNotExist ∧
    Edge.invalidate invalidSampleEdge = .error GraphErr.edgeDoesNotExist ∧
    Edge.get_edge_type invalidSampleEdge = invalidSampleEdge.edge_type ∧
    Edge.get_edge_pair invalidSampleEdge = (invalidSampleEdge.source, invalidSampleEdge.destination) ∧
    Edge.get_metadata invalidSampleEdge = invalidSampleEdge.meta ∧
    Edge.identifier invalidSampleEdge = tupleStr invalidSampleEdge.source invalidSampleEdge.destination :=
  edge_invalidation_accessors invalidSampleEdge rfl

/-
The Node class.  A Node stores its identifier, variable type, metadata,
the two edge back-reference lists and the private validity flag.
-/
structure Node where
  identifier : Str
  variable_type : NodeVariableType
  meta : List (Str × Str)
  inbound_edges : List Edge
  outbound_edges : List Edge
  is_valid : Bool

/-- Embedding of the private validity assertion of Node: raises
NodeDoesNotExistError when the node has been deleted. -/
def Node.assert_is_valid (n : Node) : Except GraphErr Unit :=
  if n.is_valid then .ok () else .error .nodeDoesNotExist

/-- invalidate: asserts validity first, so invalidating twice raises. -/
def Node.invalidate (n : Node) : Except GraphErr Node :=
  match n.assert_is_valid with
  | .error er => .error er
  | .ok _ => .ok { n with is_valid := false }

/-- The identifier property: no validity check in the source. -/
def Node.get_identifier (n : Node) : Str := n.identifier

/-- get_inbound_edges: asserts validity, then returns the list. -/
def Node.get_inbound_edges (n : Node) : Except GraphErr (List Edge) :=
  match n.assert_is_valid with
  | .error er => .error er
  | .ok _ => .ok n.inbound_edges

/-- get_outbound_edges: asserts validity, then returns the list. -/
def Node.get_outbound_edges (n : Node) : Except GraphErr (List Edge) :=
  match n.assert_is_valid with
  | .error er => .error er
  | .ok _ => .ok n.outbound_edges

/-- count_inbound_edges: the length of the inbound list, with no validity
check in the source. -/
def Node.count_inbound_edges (n : Node) : Nat := n.inbound_edges.length

/-- count_outbound_edges: the length of the outbound list, with no validity
check in the source. -/
def Node.count_outbound_edges (n : Node) : Nat := n.outbound_edges.length

/-- List membership under Edge equality, as the in operator computes it. -/
def edgeMem (e : Edge) (l : List Edge) : Bool := l.any (fun x => edge_eq x e)

/-- Removal of the first element comparing equal under Edge equality, as
list.remove does; raises ValueError when no element matches. -/
def listRemoveEdge : List Edge → Edge → Except GraphErr (List Edge)
  | [], _ => .error .valueError
  | x :: xs, e =>
    if edge_eq x e then .ok xs
    else
      match listRemoveEdge xs e with
      | .error er => .error er
      | .ok r => .ok (x :: r)

/-- add_inbound_edge: asserts validity, asserts the edge is not already
present, then appends it. -/
def Node.add_inbound_edge (n : Node) (e : Edge) : Except GraphErr Node :=
  match n.assert_is_valid with
  | .error er => .error er
  | .ok _ =>
    if edgeMem e n.inbound_edges then .error .assertionError
    else .ok { n with inbound_edges := n.inbound_edges ++ [e] }

/-- add_outbound_edge: asserts validity, asserts the edge is not already
present, then appends it. -/
def Node.add_outbound_edge (n : Node) (e : Edge) : Except GraphErr Node :=
  match n.assert_is_valid with
  | .error er => .error er
  | .ok _ =>
    if edgeMem e n.outbound_edges then .error .assertionError
    else .ok { n with outbound_edges := n.outbound_edges ++ [e] }

/-- delete_inbound_edge: asserts validity, then removes the edge from the
inbound list. -/
def Node.delete_inbound_edge (n : Node) (e : Edge) : Except GraphErr Node :=
  match n.assert_is_valid with
  | .error er => .error er
  | .ok _ =>
    match listRemoveEdge n.inbound_edges e with
    | .error er => .error er
    | .ok l => .ok { n with inbound_edges := l }

/-- delete_outbound_edge: asserts validity, then removes the edge from the
outbound list. -/
def Node.delete_outbound_edge (n : Node) (e : Edge) : Except GraphErr Node :=
  match n.assert_is_valid with
  | .error er => .error er
  | .ok _ =>
    match listRemoveEdge n.outbound_edges e with
    | .error er => .error er
    | .ok l => .ok { n with outbound_edges := l }

/-- A concrete deleted node carrying one inbound back-reference. -/
def invalidSampleNode : Node :=
  ⟨['x'], NodeVariableType.unspecified, [], [sampleEdge], [], false⟩

/-- Counterexample to claim C5: the inbound and outbound edge counters match
the source in performing no validity check — on an invalidated node they
return the list lengths instead of raising NodeDoesNotExistError. -/
theorem node_counts_survive_invalidate_cex :
    invalidSampleNode.is_valid = false ∧
    Node.count_inbound_edges invalidSampleNode = 1 ∧
    Node.count_outbound_edges invalidSampleNode = 0 :=
  ⟨rfl, rfl, rfl⟩

/-- Claim C5 (amended): once a Node is invalidated, invalidating it again,
adding or deleting inbound or outbound edges, and reading the inbound or
outbound edge lists all raise NodeDoesNotExistError; the identifier accessor
still succeeds, and the two edge counters perform no validity check and
still return the list lengths. -/
theorem node_invalidation_operations (n : Node) (e : Edge) (h : n.is_valid = false) :
    Node.invalidate n = .error GraphErr.nodeDoesNotExist ∧
    Node.add_inbound_edge n e = .error GraphErr.nodeDoesNotExist ∧
    Node.add_outbound_edge n e = .error GraphErr.nodeDoesNotExist ∧
    Node.delete_inbound_edge n e = .error GraphErr.nodeDoesNotExist ∧
    Node.delete_outbound_edge n e = .error GraphErr.nodeDoesNotExist ∧
    Node.get_inbound_edges n = .error GraphErr.nodeDoesNotExist ∧
    Node.get_outbound_edges n = .error GraphErr.nodeDoesNotExist ∧
    Node.count_inbound_edges n = n.inbound_edges.length ∧
    Node.count_outbound_edges n = n.outbound_edges.length ∧
    Node.get_identifier n = n.identifier := by
  refine ⟨?_, ?_, ?_, ?_, ?_, ?_, ?_, rfl, rfl, rfl⟩ <;>
    simp [Node.invalidate, Node.add_inbound_edge, Node.add_outbound_edge,
      Node.delete_inbound_edge, Node.delete_outbound_edge, Node.get_inbound_edges,
      Node.get_outbound_edges, Node.assert_is_valid, h]

/-- Witness for the amended claim C5 at a concrete invalidated node. -/
theorem node_invalidation_operations_w :
    Node.invalidate invalidSampleNode = .error GraphErr.nodeDoesNotExist ∧
    Node.add_inbound_edge invalidSampleNode sampleEdge = .error GraphErr.nodeDoesNotExist ∧
    Node.add_outbound_edge invalidSampleNode sampleEdge = .error GraphErr.nodeDoesNotExist ∧
    Node.delete_inbound_edge invalidSampleNode sampleEdge = .error GraphErr.nodeDoesNotExist ∧
    Node.delete_outbound_edge invalidSampleNode sampleEdge = .error GraphErr.nodeDoesNotExist ∧
    Node.get_inbound_edges invalidSampleNode = .error GraphErr.nodeDoesNotExist ∧
    Node.get_outbound_edges invalidSampleNode = .error GraphErr.nodeDoesNotExist ∧
    Node.count_inbound_edges invalidSampleNode = invalidSampleNode.inbound_edges.length ∧
    Node.count_outbound_edges invalidSampleNode = invalidSampleNode.outbound_edges.length ∧
    Node.get_identifier invalidSampleNode = invalidSampleNode.identifier :=
  node_invalidation_operations invalidSampleNode sampleEdge rfl

/-- A value compared against a Node: either another Node instance or any
value that is not a Node (the isinstance check in the source collapses all
of the latter to the same branch). -/
inductive PyValue where
  | node (n : Node)
  | notNode

/-- Embedding of Node equality: false for anything that is not a Node,
otherwise comparison of the identifiers alone — variable type, metadata and
edge lists are ignored. -/
def Node.eqPy (n : Node) : PyValue → Bool
  | .node m => decide (n.identifier = m.identifier)
  | .notNode => false

/-- Node hashing: hash of the identifier string. -/
def Node.hashValue (n : Node) : Nat := pyHash n.identifier

/-- Claim C6: Node equality and hashing are functions of the identifier
alone — two Nodes are equal exactly when their identifiers coincide (whatever
their other fields hold), equal identifiers force equal hash values, and a
Node never equals a non-Node value. -/
theorem node_eq_hash_identifier (a b : Node) :
    (Node.eqPy a (.node b) = true ↔ a.identifier = b.identifier) ∧
    (a.identifier = b.identifier → Node.hashValue a = Node.hashValue b) ∧
    Node.eqPy a .notNode = false := by
  refine ⟨by simp [Node.eqPy], fun h => ?_, rfl⟩
  unfold Node.hashValue
  rw [h]

/-- Witness for claim C6: two concrete nodes sharing an identifier but
differing in variable type and metadata are equal and share a hash value,
and neither equals a non-Node value. -/
theorem node_eq_hash_identifier_w :
    Node.eqPy ⟨['x'], NodeVariableType.unspecified, [], [], [], true⟩
      (.node ⟨['x'], NodeVariableType.continuous, [(['k'], ['v'])], [], [], true⟩) = true ∧
    Node.hashValue ⟨['x'], NodeVariableType.unspecified, [], [], [], true⟩
      = Node.hashValue ⟨['x'], NodeVariableType.continuous, [(['k'], ['v'])], [], [], true⟩ ∧
    Node.eqPy ⟨['x'], NodeVariableType.unspecified, [], [], [], true⟩ .notNode = false := by
  have h := node_eq_hash_identifier
    ⟨['x'], NodeVariableType.unspecified, [], [], [], true⟩
    ⟨['x'], NodeVariableType.continuous, [(['k'], ['v'])], [], [], true⟩
  exact ⟨h.1.mpr rfl, h.2.1 rfl, h.2.2⟩

/-- The value assigned to the variable_type setter: a NodeVariableType
member, a string, or any value of another runtime type. -/
inductive VTInput where
  | enumv (t : NodeVariableType)
  | strv (s : Str)
  | otherValue

/-- Embedding of the variable_type setter: a string is first converted
through the enum call, which raises ValueError on an unrecognized value; a
value that is neither a string nor an enum member raises TypeError; an enum
member is stored. -/
def Node.set_variable_type (n : Node) (v : VTInput) : Except GraphErr Node :=
  match v with
  | .enumv t => .ok { n with variable_type := t }
  | .strv s =>
    match NodeVariableType.ofStr s with
    | some t => .ok { n with variable_type := t }
    | none => .error .valueError
  | .otherValue => .error .typeError

/-- The variable_type getter: returns the stored member. -/
def Node.get_variable_type (n : Node) : NodeVariableType := n.variable_type

/-- A concrete valid node used by the setter theorems. -/
def sampleNode : Node := ⟨['x'], NodeVariableType.unspecified, [], [], [], true⟩

/-- Counterexample to claim C8: assigning a string that names no
NodeVariableType member raises ValueError — from the enum-call conversion —
not the TypeError the claim announces. -/
theorem variable_type_bad_string_cex :
    Node.set_variable_type sampleNode (.strv "bad_type".data)
      = .error GraphErr.valueError ∧
    GraphErr.valueError ≠ GraphErr.typeError :=
  ⟨rfl, by decide⟩

/-- Claim C8 (amended): the variable_type setter stores an enum member, and
stores the member a recognized string converts to, both visible unchanged
through the getter; a string naming no member raises ValueError (the
enum-call conversion fails before the type check), and a value that is
neither a string nor a member raises TypeError. -/
theorem variable_type_setter (n : Node) (s : Str) (t : NodeVariableType)
    (hs : NodeVariableType.ofStr s = none) :
    Node.set_variable_type n (.enumv t) = .ok { n with variable_type := t } ∧
    Node.get_variable_type { n with variable_type := t } = t ∧
    (∀ s2 t2, NodeVariableType.ofStr s2 = some t2 →
      Node.set_variable_type n (.strv s2) = .ok { n with variable_type := t2 }) ∧
    Node.set_variable_type n (.strv s) = .error GraphErr.valueError ∧
    Node.set_variable_type n .otherValue = .error GraphErr.typeError := by
  refine ⟨rfl, rfl, fun s2 t2 h2 => ?_, ?_, rfl⟩
  · simp [Node.set_variable_type, h2]
  · simp [Node.set_variable_type, hs]

/-- Witness for the amended claim C8 at a concrete node, a concrete
unrecognized string and a concrete member. -/
theorem variable_type_setter_w :
    Node.set_variable_type sampleNode (.enumv NodeVariableType.continuous)
      = .ok { sampleNode with variable_type := NodeVariableType.continuous } ∧
    Node.get_variable_type { sampleNode with variable_type := NodeVariableType.continuous }
      = NodeVariableType.continuous ∧
    (∀ s2 t2, NodeVariableType.ofStr s2 = some t2 →
      Node.set_variable_type sampleNode (.strv s2)
        = .ok { sampleNode with variable_type := t2 }) ∧
    Node.set_variable_type sampleNode (.strv "bad_type".data)
      = .error GraphErr.valueError ∧
    Node.set_variable_type sampleNode .otherValue = .error GraphErr.typeError :=
  variable_type_setter sampleNode "bad_type".data NodeVariableType.continuous rfl

/-- Assignment to a string-keyed mapping: replace the value of an existing
key in place, otherwise append the binding, as dict assignment does. -/
def metaInsert (m : List (Str × Str)) (k v : Str) : List (Str × Str) :=
  match m with
  | [] => [(k, v)]
  | (k2, v2) :: rest => if k2 = k then (k, v) :: rest else (k2, v2) :: metaInsert rest k v

/-- Embedding of the variable_name validity check: decode the base variable
of the proposed name and of this node's identifier (each decode can raise
ValueError) and assert that they agree, raising AssertionError otherwise. -/
def Node.check_var_name_is_valid (n : Node) (nm : Str) : Except GraphErr Unit :=
  match get_variable_name_and_lag nm with
  | .error er => .error er
  | .ok (vname, _) =>
    match get_variable_name_and_lag n.identifier with
    | .error er => .error er
    | .ok (vthis, _) =>
      if vthis = vname then .ok () else .error .assertionError

/-- Embedding of the variable_name setter: run the validity check, then
store the new name under the metadata key for the variable name. -/
def Node.set_variable_name (n : Node) (new_name : Str) : Except GraphErr Node :=
  match n.check_var_name_is_valid new_name with
  | .error er => .error er
  | .ok _ => .ok { n with meta := metaInsert n.meta "variable_name".data new_name }

/-- Claim C9: when the proposed name and the node identifier both decode,
the variable_name setter raises the assertion-style validation error on a
base-variable mismatch — leaving the node untouched, since no updated node
is produced — and on a match stores the new name under the metadata key
variable_name. -/
theorem variable_name_setter (n : Node) (nm v vt : Str) (l lt : Int)
    (h1 : get_variable_name_and_lag nm = .ok (v, l))
    (h2 : get_variable_name_and_lag n.identifier = .ok (vt, lt)) :
    (vt ≠ v → Node.set_variable_name n nm = .error GraphErr.assertionError) ∧
    (vt = v → Node.set_variable_name n nm
      = .ok { n with meta := metaInsert n.meta "variable_name".data nm }) := by
  constructor
  · intro hne
    simp [Node.set_variable_name, Node.check_var_name_is_valid, h1, h2, hne]
  · intro heq
    simp [Node.set_variable_name, Node.check_var_name_is_valid, h1, h2, heq]

/-- Witness for claim C9: for a node with identifier x, the lagged name of x
is accepted and stored, and the name y is rejected with the validation
error. -/
theorem variable_name_setter_w :
    Node.set_variable_name sampleNode "x lag(n=2)".data
      = .ok { sampleNode with
          meta := metaInsert sampleNode.meta "variable_name".data "x lag(n=2)".data } ∧
    Node.set_variable_name sampleNode ['y'] = .error GraphErr.assertionError := by
  constructor
  · exact (variable_name_setter sampleNode "x lag(n=2)".data ['x'] ['x'] (-2) 0
      rfl rfl).2 rfl
  · exact (variable_name_setter sampleNode ['y'] ['y'] ['x'] 0 0
      rfl rfl).1 (by decide)

end Cai
